/-
  Verification development for the 7DTD-ModletCombiner merge engine.

  The Python sources under `7dtd_modlet_combiner/` are shallowly embedded as
  executable Lean definitions, one namespace per Python class/module:

    * `MC.XMLParser`          ← parser_xml.py
    * `MC.LocalizationParser` ← parser_localization.py
    * `MC.DBProcessor`        ← db_processor.py
    * `MC.ModletWriter`       ← modlet_writer.py
    * `MC.XMLWriter`          ← xml_writer.py
    * `MC.FileLocator`        ← file_locator.py
    * `MC.Config`             ← configuration.py

  Machine-level / library-level facilities used by the sources (UTF-8 codecs,
  base64, MD5, SQLite tables) are embedded as pure functions on `List Nat`
  byte strings and on Lean `List`s standing for SQLite tables in rowid
  (insertion) order, which is the order an unordered `SELECT` scans a
  non-WITHOUT-ROWID SQLite table.

  Theorems named `C1_…` … `C10_…` settle the frozen specification claims.
-/
import Mathlib

namespace MC

/-! ## Difference-percentage helpers (parser_xml.py 128-137, parser_localization.py 155-166)

Both helpers first short-circuit on equal inputs, otherwise count positional
character mismatches over the common length, add the length difference, and
return `changes / max(len) * 100`.  Python's float arithmetic is embedded as
exact rational arithmetic (`ℚ`). -/

namespace XMLParser

/-- Embeds `XMLParser._calculate_difference_percentage` (parser_xml.py 128-137):
`changes = sum(1 for a, b in zip(original, stored) if a != b)` plus
`abs(len(original) - len(stored))`, divided by the max length, times 100.
The `except` branch returning 100 is unreachable for string inputs. -/
def calculateDifferencePercentage (original stored : String) : ℚ :=
  if original = stored then 0
  else
    ((((original.toList.zip stored.toList).filter fun p => p.1 ≠ p.2).length
        + (original.toList.length - stored.toList.length)
        + (stored.toList.length - original.toList.length) : Nat) : ℚ)
      / (max original.toList.length stored.toList.length) * 100

end XMLParser

namespace LocalizationParser

/-- Embeds `LocalizationParser.calculate_difference` (parser_localization.py
155-166): a loop over `range(min(len, len))` counting index-wise mismatches —
the same count as zipping the two character lists — plus
`abs(len(original) - len(stored))`, divided by the max length, times 100. -/
def calculateDifference (original stored : String) : ℚ :=
  if original = stored then 0
  else
    ((((original.toList.zip stored.toList).filter fun p => p.1 ≠ p.2).length
        + (original.toList.length - stored.toList.length)
        + (stored.toList.length - original.toList.length) : Nat) : ℚ)
      / (max original.toList.length stored.toList.length) * 100

end LocalizationParser

/-! ## Byte-level library facilities

The Python sources lean on `str.encode`/`bytes.decode` (UTF-8 and ASCII
codecs), the `base64`/`binascii` pair, and `hashlib.md5`.  These are embedded
below as pure executable functions on `List Nat` byte strings. -/

/-- UTF-8 encoding of one scalar value (Python `str.encode('utf-8')`). -/
def utf8EncodeChar (c : Char) : List Nat :=
  let n := c.toNat
  if n < 0x80 then [n]
  else if n < 0x800 then [0xC0 + n / 64, 0x80 + n % 64]
  else if n < 0x10000 then [0xE0 + n / 4096, 0x80 + n / 64 % 64, 0x80 + n % 64]
  else [0xF0 + n / 262144, 0x80 + n / 4096 % 64, 0x80 + n / 64 % 64, 0x80 + n % 64]

/-- UTF-8 encoding of a whole string. -/
def utf8Encode (s : String) : List Nat :=
  (s.toList.map utf8EncodeChar).flatten

/-- Whether a byte is a UTF-8 continuation byte `10xxxxxx`. -/
def isCont (b : Nat) : Bool := 0x80 ≤ b && b < 0xC0

/-- UTF-8 decoding (Python `bytes.decode('utf-8')`); `none` models
`UnicodeDecodeError`.  Overlong forms, surrogates and out-of-range scalar
values are rejected, as CPython rejects them. -/
def utf8Decode : List Nat → Option (List Char)
  | [] => some []
  | b :: rest =>
    if b < 0x80 then (utf8Decode rest).map (Char.ofNat b :: ·)
    else if b < 0xC0 then none
    else if b < 0xE0 then
      match rest with
      | b1 :: rest1 =>
        if isCont b1 then
          let n := (b - 0xC0) * 64 + (b1 - 0x80)
          if n < 0x80 then none else (utf8Decode rest1).map (Char.ofNat n :: ·)
        else none
      | _ => none
    else if b < 0xF0 then
      match rest with
      | b1 :: b2 :: rest2 =>
        if isCont b1 && isCont b2 then
          let n := (b - 0xE0) * 4096 + (b1 - 0x80) * 64 + (b2 - 0x80)
          if n < 0x800 || (0xD800 ≤ n && n < 0xE000) then none
          else (utf8Decode rest2).map (Char.ofNat n :: ·)
        else none
      | _ => none
    else if b < 0xF8 then
      match rest with
      | b1 :: b2 :: b3 :: rest3 =>
        if isCont b1 && isCont b2 && isCont b3 then
          let n := (b - 0xF0) * 262144 + (b1 - 0x80) * 4096 + (b2 - 0x80) * 64 + (b3 - 0x80)
          if n < 0x10000 || 0x110000 ≤ n then none
          else (utf8Decode rest3).map (Char.ofNat n :: ·)
        else none
      | _ => none
    else none

/-- The base64 alphabet, as in RFC 4648 / Python `base64`. -/
def b64Alphabet : List Char :=
  "ABCDEFGHIJKLMNOPQRSTUVWXYZabcdefghijklmnopqrstuvwxyz0123456789+/".toList

/-- Character for a 6-bit group. -/
def b64Char (n : Nat) : Char := b64Alphabet.getD n 'A'

/-- Value of a base64 alphabet character, `none` for anything else. -/
def b64Val (c : Char) : Option Nat :=
  let i := b64Alphabet.indexOf c
  if i < 64 then some i else none

/-- Standard padded base64 encoding of a byte string
(Python `base64.b64encode`). -/
def b64EncodeBytes : List Nat → List Char
  | [] => []
  | [a] => [b64Char (a / 4), b64Char (a % 4 * 16), '=', '=']
  | [a, b] => [b64Char (a / 4), b64Char (a % 4 * 16 + b / 16), b64Char (b % 16 * 4), '=']
  | a :: b :: c :: rest =>
    b64Char (a / 4) :: b64Char (a % 4 * 16 + b / 16) :: b64Char (b % 16 * 4 + c / 64)
      :: b64Char (c % 64) :: b64EncodeBytes rest

/-- Base64 decoding of a stream already filtered to alphabet and `=`
characters: full quads, with `=`-padding allowed in the final quad only.
`none` models `binascii.Error` (incorrect padding). -/
def b64DecodeQuads : List Char → Option (List Nat)
  | [] => some []
  | c1 :: c2 :: c3 :: c4 :: rest =>
    match b64Val c1, b64Val c2 with
    | some v1, some v2 =>
      if c3 = '=' then
        if c4 = '=' && rest.isEmpty then some [v1 * 4 + v2 / 16] else none
      else
        match b64Val c3 with
        | some v3 =>
          if c4 = '=' then
            if rest.isEmpty then some [v1 * 4 + v2 / 16, v2 % 16 * 16 + v3 / 4] else none
          else
            match b64Val c4 with
            | some v4 =>
              (b64DecodeQuads rest).map
                ([v1 * 4 + v2 / 16, v2 % 16 * 16 + v3 / 4, v3 % 4 * 64 + v4] ++ ·)
            | none => none
        | none => none
    | _, _ => none
  | _ => none

/-- Base64 decoding as `base64.b64decode` behaves without `validate=True`:
characters outside the alphabet (and `=`) are discarded before decoding, and
a leftover partial quad raises `binascii.Error` (modelled as `none`). -/
def b64Decode (s : List Char) : Option (List Nat) :=
  b64DecodeQuads (s.filter fun c => (b64Val c).isSome || c = '=')

/-- Left-rotation of a 32-bit word. -/
def rotl32 (x s : Nat) : Nat := (x * 2 ^ s + x / 2 ^ (32 - s)) % 2 ^ 32

/-- Bitwise complement of a 32-bit word. -/
def not32 (x : Nat) : Nat := 2 ^ 32 - 1 - x % 2 ^ 32

/-- The 64 MD5 sine-derived constants `floor(abs(sin(i+1)) * 2^32)`. -/
def md5K : List Nat :=
  [0xd76aa478, 0xe8c7b756, 0x242070db, 0xc1bdceee, 0xf57c0faf, 0x4787c62a, 0xa8304613, 0xfd469501,
    0x698098d8, 0x8b44f7af, 0xffff5bb1, 0x895cd7be, 0x6b901122, 0xfd987193, 0xa679438e, 0x49b40821,
    0xf61e2562, 0xc040b340, 0x265e5a51, 0xe9b6c7aa, 0xd62f105d, 0x02441453, 0xd8a1e681, 0xe7d3fbc8,
    0x21e1cde6, 0xc33707d6, 0xf4d50d87, 0x455a14ed, 0xa9e3e905, 0xfcefa3f8, 0x676f02d9, 0x8d2a4c8a,
    0xfffa3942, 0x8771f681, 0x6d9d6122, 0xfde5380c, 0xa4beea44, 0x4bdecfa9, 0xf6bb4b60, 0xbebfbc70,
    0x289b7ec6, 0xeaa127fa, 0xd4ef3085, 0x04881d05, 0xd9d4d039, 0xe6db99e5, 0x1fa27cf8, 0xc4ac5665,
    0xf4292244, 0x432aff97, 0xab9423a7, 0xfc93a039, 0x655b59c3, 0x8f0ccc92, 0xffeff47d, 0x85845dd1,
    0x6fa87e4f, 0xfe2ce6e0, 0xa3014314, 0x4e0811a1, 0xf7537e82, 0xbd3af235, 0x2ad7d2bb, 0xeb86d391]

/-- The MD5 per-round left-rotation amounts. -/
def md5S : List Nat :=
  [7, 12, 17, 22, 7, 12, 17, 22, 7, 12, 17, 22, 7, 12, 17, 22,
    5, 9, 14, 20, 5, 9, 14, 20, 5, 9, 14, 20, 5, 9, 14, 20,
    4, 11, 16, 23, 4, 11, 16, 23, 4, 11, 16, 23, 4, 11, 16, 23,
    6, 10, 15, 21, 6, 10, 15, 21, 6, 10, 15, 21, 6, 10, 15, 21]

/-- MD5 padding: append `0x80`, zero-fill to 56 mod 64, append the 64-bit
little-endian bit length. -/
def md5Pad (msg : List Nat) : List Nat :=
  let bitLen := msg.length * 8
  msg ++ [0x80] ++ List.replicate ((64 + 55 - msg.length % 64) % 64) 0
    ++ (List.range 8).map (fun i => bitLen / 2 ^ (8 * i) % 256)

/-- The 16 little-endian 32-bit message words of one 64-byte chunk. -/
def md5Words (chunk : List Nat) : List Nat :=
  (List.range 16).map fun j =>
    chunk.getD (4 * j) 0 + chunk.getD (4 * j + 1) 0 * 256
      + chunk.getD (4 * j + 2) 0 * 65536 + chunk.getD (4 * j + 3) 0 * 16777216

/-- One of the 64 MD5 rounds. -/
def md5Round (M : List Nat) (st : Nat × Nat × Nat × Nat) (i : Nat) :
    Nat × Nat × Nat × Nat :=
  let (a, b, c, d) := st
  let fg : Nat × Nat :=
    if i < 16 then ((b &&& c) ||| (not32 b &&& d), i)
    else if i < 32 then ((d &&& b) ||| (not32 d &&& c), (5 * i + 1) % 16)
    else if i < 48 then (b ^^^ c ^^^ d, (3 * i + 5) % 16)
    else (c ^^^ (b ||| not32 d), 7 * i % 16)
  let tmp := (fg.1 + a + md5K.getD i 0 + M.getD fg.2 0) % 2 ^ 32
  (d, (b + rotl32 tmp (md5S.getD i 0)) % 2 ^ 32, b, c)

/-- MD5 compression of one 64-byte chunk into the running state. -/
def md5Chunk (st : Nat × Nat × Nat × Nat) (chunk : List Nat) :
    Nat × Nat × Nat × Nat :=
  let M := md5Words chunk
  let r := (List.range 64).foldl (md5Round M) st
  ((st.1 + r.1) % 2 ^ 32, (st.2.1 + r.2.1) % 2 ^ 32,
    (st.2.2.1 + r.2.2.1) % 2 ^ 32, (st.2.2.2 + r.2.2.2) % 2 ^ 32)

/-- Split a byte string into 64-byte chunks. -/
def chunks64 : List Nat → List (List Nat)
  | [] => []
  | a :: t => (a :: t).take 64 :: chunks64 ((a :: t).drop 64)
termination_by l => l.length
decreasing_by
  simp only [List.length_drop, List.length_cons]
  omega

/-- Lower-case hex digit. -/
def hexDigit (n : Nat) : Char :=
  "0123456789abcdef".toList.getD n '0'

/-- Hex rendering of one byte, two lower-case digits. -/
def hexByte (n : Nat) : List Char := [hexDigit (n / 16 % 16), hexDigit (n % 16)]

/-- Hex rendering of a 32-bit word, little-endian byte order as in an MD5
digest. -/
def hexWordLE (w : Nat) : List Char :=
  hexByte (w % 256) ++ hexByte (w / 256 % 256) ++ hexByte (w / 65536 % 256)
    ++ hexByte (w / 16777216 % 256)

/-- MD5 digest of a byte string, as a lower-case hex string
(`hashlib.md5(..).hexdigest()`). -/
def md5HexBytes (msg : List Nat) : String :=
  let st := (chunks64 (md5Pad msg)).foldl md5Chunk
    (0x67452301, 0xefcdab89, 0x98badcfe, 0x10325476)
  String.mk (hexWordLE st.1 ++ hexWordLE st.2.1 ++ hexWordLE st.2.2.1 ++ hexWordLE st.2.2.2)

/-- MD5 hex digest of a string's UTF-8 bytes
(`hashlib.md5(s.encode()).hexdigest()`). -/
def md5Hex (s : String) : String := md5HexBytes (utf8Encode s)

/-! ## DBProcessor: at-rest encoding and the modlet identifier
(db_processor.py 91-114) -/

namespace DBProcessor

/-- Embeds `DBProcessor._encode_data` (db_processor.py 91-94): base64 of the
UTF-8 bytes when the configured encoding is `'base64'` (the default),
otherwise the identity.  The `useBase64` flag embeds
`self.encoding == 'base64'`. -/
def encodeData (useBase64 : Bool) (data : String) : String :=
  if useBase64 then String.mk (b64EncodeBytes (utf8Encode data)) else data

/-- Python `all(ord(c) < 128 for c in data)` (db_processor.py 104), which is
also exactly the condition under which `data.encode('ascii')` succeeds. -/
def allAscii (data : String) : Bool := data.toList.all fun c => c.toNat < 128

/-- The body of the `except (binascii.Error, UnicodeDecodeError)` handler of
`DBProcessor._decode_data` (db_processor.py 102-108): return the raw value
when it is plain ASCII, otherwise a value truncated to 50 characters. -/
def decodeFallback (data : String) : String :=
  if allAscii data then data
  else if data.length > 50 then String.mk (data.toList.take 50) ++ "..." else data

/-- Python exceptions that escape the embedded fragments. -/
inductive PyError where
  | unicodeEncodeError
  | zeroDivisionError
deriving DecidableEq, Repr

end DBProcessor

/-- Equality of embedded fallible results is decidable. -/
instance {ε α : Type} [DecidableEq ε] [DecidableEq α] : DecidableEq (Except ε α) :=
  fun a b =>
    match a, b with
    | .error e1, .error e2 =>
      if h : e1 = e2 then .isTrue (by rw [h]) else .isFalse (by simp [h])
    | .ok v1, .ok v2 =>
      if h : v1 = v2 then .isTrue (by rw [h]) else .isFalse (by simp [h])
    | .error _, .ok _ => .isFalse (by simp)
    | .ok _, .error _ => .isFalse (by simp)

namespace DBProcessor

/-- Embeds `DBProcessor._decode_data` (db_processor.py 96-109).  The guarded
`try` block is `base64.b64decode(data.encode('ascii')).decode('utf-8')`:

* `data.encode('ascii')` raises `UnicodeEncodeError` when `data` has any
  non-ASCII character; that exception is NOT among the caught classes
  (`binascii.Error`, `UnicodeDecodeError`), so it escapes — modelled as
  `Except.error .unicodeEncodeError`;
* a caught `binascii.Error` or `UnicodeDecodeError` lands in the handler
  `decodeFallback` — which, being reachable only after `encode('ascii')`
  succeeded, always takes its all-ASCII branch. -/
def decodeData (useBase64 : Bool) (data : String) : Except PyError String :=
  if data = "" then .ok ""
  else if useBase64 then
    if !allAscii data then .error .unicodeEncodeError
    else
      match b64Decode data.toList with
      | none => .ok (decodeFallback data)
      | some bytes =>
        match utf8Decode bytes with
        | none => .ok (decodeFallback data)
        | some chars => .ok (String.mk chars)
  else .ok data

/-- Embeds `DBProcessor.generate_unique_id` (db_processor.py 111-114), which
`ModletFinder._parse_modinfo` (modlet_finder.py 106) replicates verbatim:
the MD5 hex digest of `f"{name}_{version}"`. -/
def generateUniqueId (name version : String) : String :=
  md5Hex (name ++ "_" ++ version)

/-! ### The SQLite tables (db_processor.py 81-89)

`xml_data` and `localization_data` both have `id INTEGER PRIMARY KEY
AUTOINCREMENT` as their ONLY uniqueness constraint and the inserts never
supply an `id`, so `INSERT OR REPLACE` can never hit a constraint conflict:
every store is a plain append.  A table is embedded as a Lean list in rowid
(= insertion) order, which is also the scan order of an unordered
`SELECT`. -/

/-- One row of the `xml_data` table; `content` holds the stored (possibly
base64-encoded) text. -/
structure XmlRow where
  modlet_name : String
  unique_id : String
  full_path : String
  short_path : String
  outer_tag : String
  content : String
deriving DecidableEq, Repr

/-- Embeds `DBProcessor.store_xml_data` (db_processor.py 137-162): encode the
content and `INSERT OR REPLACE` it into `xml_data` — an append, see above.
(The post-insert re-read and difference logging do not change the table.) -/
def storeXmlData (useBase64 : Bool) (table : List XmlRow)
    (modlet_name unique_id full_path short_path outer_tag content : String) :
    List XmlRow :=
  table ++ [{ modlet_name, unique_id, full_path, short_path, outer_tag,
              content := encodeData useBase64 content }]

/-- One row of the `localization_data` table (stored form). -/
structure LocRow where
  modlet_name : String
  unique_id : String
  full_path : String
  short_path : String
  file : String
  used_in_main_menu : String
  no_translate : String
  type : String
  key : String
  english : String
  german : String
  latam : String
  french : String
  italian : String
  japanese : String
  koreana : String
  polish : String
  brazilian : String
  russian : String
  turkish : String
  schinese : String
  tchinese : String
  spanish : String
  value : String
deriving DecidableEq, Repr

/-- Fieldwise `_encode_data`, as `store_localization_data` applies it to every
column value before inserting. -/
def encodeLocRow (useBase64 : Bool) (r : LocRow) : LocRow where
  modlet_name := encodeData useBase64 r.modlet_name
  unique_id := encodeData useBase64 r.unique_id
  full_path := encodeData useBase64 r.full_path
  short_path := encodeData useBase64 r.short_path
  file := encodeData useBase64 r.file
  used_in_main_menu := encodeData useBase64 r.used_in_main_menu
  no_translate := encodeData useBase64 r.no_translate
  type := encodeData useBase64 r.type
  key := encodeData useBase64 r.key
  english := encodeData useBase64 r.english
  german := encodeData useBase64 r.german
  latam := encodeData useBase64 r.latam
  french := encodeData useBase64 r.french
  italian := encodeData useBase64 r.italian
  japanese := encodeData useBase64 r.japanese
  koreana := encodeData useBase64 r.koreana
  polish := encodeData useBase64 r.polish
  brazilian := encodeData useBase64 r.brazilian
  russian := encodeData useBase64 r.russian
  turkish := encodeData useBase64 r.turkish
  schinese := encodeData useBase64 r.schinese
  tchinese := encodeData useBase64 r.tchinese
  spanish := encodeData useBase64 r.spanish
  value := encodeData useBase64 r.value

/-- Embeds `DBProcessor.store_localization_data` (db_processor.py 164-175):
encode every column value, then `INSERT OR REPLACE` into
`localization_data`.  Since that table's only uniqueness constraint is the
never-supplied AUTOINCREMENT id, the statement always appends — it never
replaces an existing row, whatever its key, path or owning modlet. -/
def storeLocalizationData (useBase64 : Bool) (table : List LocRow) (r : LocRow) :
    List LocRow :=
  table ++ [encodeLocRow useBase64 r]

end DBProcessor

/-- A sample localization row: key `KeyX` from modlet `ModA`, path
`A/Localization.txt`. -/
def sampleLocRow : DBProcessor.LocRow where
  modlet_name := "ModA"
  unique_id := "uidA"
  full_path := "src/A/Config/Localization.txt"
  short_path := "Config/Localization.txt"
  file := "items"
  used_in_main_menu := ""
  no_translate := ""
  type := "Item"
  key := "KeyX"
  english := "Hello"
  german := ""
  latam := ""
  french := ""
  italian := ""
  japanese := ""
  koreana := ""
  polish := ""
  brazilian := ""
  russian := ""
  turkish := ""
  schinese := ""
  tchinese := ""
  spanish := ""
  value := "Hello"

/-! ## ElementTree trees and XMLParser.parse (parser_xml.py 46-85)

`XMLParser.parse` text-processes the raw file (lstrip, synthesized XML
declaration) and hands it to `ET.fromstring`; everything from there on works
on the parsed tree, which is the embedding's input.  An `Element` carries
tag, attributes in insertion order, optional text, children, and optional
tail, exactly as ElementTree models XML. -/

/-- An ElementTree element. -/
inductive Element where
  | mk (tag : String) (attrib : List (String × String)) (text : Option String)
      (children : List Element) (tail : Option String)

/-- Tag accessor. -/
def Element.tag : Element → String
  | .mk t _ _ _ _ => t

/-- Children accessor. -/
def Element.children : Element → List Element
  | .mk _ _ _ c _ => c

/-- ElementTree `_escape_cdata`: `&`, `<`, `>` escaped in text and tails. -/
def escapeCdata (s : String) : String :=
  String.mk (s.toList.flatMap fun c =>
    if c = '&' then "&amp;".toList
    else if c = '<' then "&lt;".toList
    else if c = '>' then "&gt;".toList
    else [c])

/-- ElementTree `_escape_attrib`: `&`, `<`, `>`, `"`, and whitespace
references escaped in attribute values. -/
def escapeAttrib (s : String) : String :=
  String.mk (s.toList.flatMap fun c =>
    if c = '&' then "&amp;".toList
    else if c = '<' then "&lt;".toList
    else if c = '>' then "&gt;".toList
    else if c = '"' then "&quot;".toList
    else if c = '\r' then "&#13;".toList
    else if c = '\n' then "&#10;".toList
    else if c = '\t' then "&#09;".toList
    else [c])

/-! ElementTree `_serialize_xml` with the default `short_empty_elements=True`
and `encoding='unicode'`, i.e. `ET.tostring(elem, encoding='unicode',
method='xml')`: attributes in order, `<tag />` for childless text-less
elements, and the element's tail appended. -/

mutual

/-- Serialization of one ElementTree element. -/
def serializeElement : Element → String
  | .mk tag attrib text children tail =>
    "<" ++ tag
      ++ String.join (attrib.map fun kv => " " ++ kv.1 ++ "=\"" ++ escapeAttrib kv.2 ++ "\"")
      ++ (if text.getD "" ≠ "" ∨ children.isEmpty = false then
            ">" ++ escapeCdata (text.getD "")
              ++ serializeChildren children
              ++ "</" ++ tag ++ ">"
          else " />")
      ++ escapeCdata (tail.getD "")

/-- Serialization of a child list, in order. -/
def serializeChildren : List Element → String
  | [] => ""
  | e :: es => serializeElement e ++ serializeChildren es

end

/-- Python `str.strip()` whitespace (the ASCII part). -/
def pyWhitespace (c : Char) : Bool :=
  c = ' ' || c = '\t' || c = '\n' || c = '\r' || c.toNat = 11 || c.toNat = 12

/-- Python `str.strip()`. -/
def pyStrip (s : String) : String :=
  String.mk (((s.toList.dropWhile pyWhitespace).reverse.dropWhile pyWhitespace).reverse)

/-- Python `sep.join(parts)`. -/
def pyJoin (sep : String) : List String → String
  | [] => ""
  | [x] => x
  | x :: y :: rest => x ++ sep ++ pyJoin sep (y :: rest)

/-- Helper for `pySplit`: accumulate the current field (reversed). -/
def pySplitAux (sep : Char) : List Char → List Char → List String
  | [], acc => [String.mk acc.reverse]
  | c :: rest, acc =>
    if c = sep then String.mk acc.reverse :: pySplitAux sep rest []
    else pySplitAux sep rest (c :: acc)

/-- Python `str.split(sep)` for a one-character separator: empty fields are
kept, and splitting the empty string yields `['']`. -/
def pySplit (sep : Char) (s : String) : List String := pySplitAux sep s.toList []

/-- Python `str.startswith(pre)` as a character-list test. -/
def pyStartsWith (s pre : String) : Bool := go s.toList pre.toList
where
  go : List Char → List Char → Bool
    | _, [] => true
    | [], _ :: _ => false
    | c :: cs, p :: ps => c = p && go cs ps

/-- Python `str.lower()` (ASCII case mapping). -/
def pyLower (s : String) : String := String.mk (s.toList.map Char.toLower)

namespace XMLParser

/-- Embeds `XMLParser._get_short_path` (parser_xml.py 80-85):
`full_path.split('/')[-1]`. -/
def getShortPath (full_path : String) : String :=
  (pySplit '/' full_path).getLastD full_path

/-- Embeds `XMLParser.parse` (parser_xml.py 46-77) from `ET.fromstring`
onward: take the parsed document root, record its tag as `outer_tag`, build
ONE newline-joined string out of the stripped serializations of all
immediate children (`'\n'.join(ET.tostring(child, encoding='unicode',
method='xml').strip() for child in root)`), and store it as a single
`xml_data` row via `store_xml_data`. -/
def parse (useBase64 : Bool) (table : List DBProcessor.XmlRow) (root : Element)
    (file_path modlet_name unique_id : String) : List DBProcessor.XmlRow :=
  DBProcessor.storeXmlData useBase64 table modlet_name unique_id file_path
    (getShortPath file_path) root.tag
    (pyJoin "\n" (root.children.map fun c => pyStrip (serializeElement c)))

end XMLParser

/-- A sample two-child document: `<items>` wrapping an `<item>` and a
`<block>`. -/
def sampleRootTwoChildren : Element :=
  .mk "items" [] (some "\n  ") [
    .mk "item" [("name", "gun")] none [] (some "\n  "),
    .mk "block" [] (some "hi") [] (some "\n")] none

/-! ## get_xml_data and the combined-file writer (db_processor.py 197-224,
modlet_writer.py 201-238)

`get_xml_data('', '', '')` scans all of `xml_data` in rowid order and builds
a Python dict of dicts: `xml_data[short_path][outer_tag]` is the list of
decoded contents appended in row order.  Python dicts preserve key insertion
order, embedded here as association lists updated by `upsertPath` /
`upsertTag`.  `_write_xml_files` then walks `content.items()` per path and
flattens each tag's list in turn — thereby regrouping blocks by outer tag. -/

namespace DBProcessor

/-- Append `v` under key `tag` of an insertion-ordered Python dict
(`xml_data[short_path][outer_tag].append(...)`, db_processor.py 211-215). -/
def upsertTag (groups : List (String × List String)) (tag v : String) :
    List (String × List String) :=
  match groups with
  | [] => [(tag, [v])]
  | (t, vs) :: rest =>
    if t = tag then (t, vs ++ [v]) :: rest else (t, vs) :: upsertTag rest tag v

/-- Append `v` under `acc[p][tag]` of the nested insertion-ordered dict. -/
def upsertPath (acc : List (String × List (String × List String)))
    (p tag v : String) : List (String × List (String × List String)) :=
  match acc with
  | [] => [(p, [(tag, [v])])]
  | (q, groups) :: rest =>
    if q = p then (q, upsertTag groups tag v) :: rest
    else (q, groups) :: upsertPath rest p tag v

/-- First-match association lookup (Python dict indexing). -/
def lookupGroups {α : Type} : List (String × α) → String → Option α
  | [], _ => none
  | (q, v) :: rest, p => if q = p then some v else lookupGroups rest p

/-- Embeds `DBProcessor.get_xml_data` in its all-rows branch
(db_processor.py 197-224, called with `('', '', '')` by the writer): scan the
table in rowid order, decode each content, and grow the nested dict.  The
first decoding failure propagates out of the loop, as the raised exception
would. -/
def getXmlData (useBase64 : Bool) :
    List XmlRow → List (String × List (String × List String)) →
      Except PyError (List (String × List (String × List String)))
  | [], acc => .ok acc
  | r :: rest, acc =>
    match decodeData useBase64 r.content with
    | .error e => .error e
    | .ok v => getXmlData useBase64 rest (upsertPath acc r.short_path r.outer_tag v)

/-- The dict produced when every row decodes, with `dec` naming each row's
decoded content. -/
def pureXmlDict (dec : XmlRow → String) (rows : List XmlRow) :
    List (String × List (String × List String)) :=
  rows.foldl (fun a r => upsertPath a r.short_path r.outer_tag (dec r)) []

/-- Single-level grouping of (tag, value) pairs in encounter order. -/
def tagGroups (l : List (String × String)) : List (String × List String) :=
  l.foldl (fun acc x => upsertTag acc x.1 x.2) []

end DBProcessor

/-- Keys in order of first occurrence (Python dict key order). -/
def firstOccurAux : List String → List String → List String
  | [], _ => []
  | x :: xs, seen =>
    if x ∈ seen then firstOccurAux xs seen else x :: firstOccurAux xs (x :: seen)

/-- Keys of a list in order of first occurrence. -/
def firstOccur (l : List String) : List String := firstOccurAux l []

/-- Closed form of single-level grouping: tags in first-occurrence order,
each carrying its values in original order. -/
def tagGroupsSpec (l : List (String × String)) : List (String × List String) :=
  (firstOccur (l.map Prod.fst)).map fun t =>
    (t, (l.filter fun x => x.1 == t).map Prod.snd)

namespace ModletWriter

/-- The sequence of XML blocks `_write_xml_files` (modlet_writer.py 209-226)
writes into the combined file for logical short path `p`: it iterates
`content.items()` — the per-tag lists in tag first-encounter order — and
flattens them. -/
def writeXmlBlocks (useBase64 : Bool) (rows : List DBProcessor.XmlRow)
    (p : String) : Except DBProcessor.PyError (List String) :=
  match DBProcessor.getXmlData useBase64 rows [] with
  | .error e => .error e
  | .ok dict => .ok (((DBProcessor.lookupGroups dict p).getD []).map Prod.snd).flatten

end ModletWriter

/-- Three-row sample table: modlet A records a `recipes` block and a `blocks`
block for short path `x.xml`, then modlet B records another `recipes`
block for the same short path. -/
def sampleXmlRows : List DBProcessor.XmlRow :=
  DBProcessor.storeXmlData true
    (DBProcessor.storeXmlData true
      (DBProcessor.storeXmlData true []
        "A" "uidA" "src/A/Config/x.xml" "x.xml" "recipes" "<r1 />")
      "A" "uidA" "src/A/Config/x2.xml" "x.xml" "blocks" "<b1 />")
    "B" "uidB" "src/B/Config/x.xml" "x.xml" "recipes" "<r2 />"

/-! ## LocalizationParser.parse (parser_localization.py 31-76)

The csv module's splitting of the raw text into rows of fields is Python
library behavior; the embedding's input is the resulting list of rows
(`csv.reader` output), each row a list of resolved fields. -/

namespace LocalizationParser

/-- Embeds `LocalizationParser._get_short_path` (parser_localization.py
90-100): `'/'.join(full_path.split('/')[-2:])`. -/
def getShortPath (full_path : String) : String :=
  pyJoin "/"
    ((pySplit '/' full_path).drop ((pySplit '/' full_path).length - 2))

/-- The destructuring `key, file, type, used_in_main_menu, no_translate,
english, *other_languages = row[:20]` plus the argument order of the
`store_localization_data` call (parser_localization.py 66-73): only the
first 20 fields are consulted. -/
def mkLocRow (modlet_name unique_id full_path short_path : String)
    (row : List String) : DBProcessor.LocRow where
  modlet_name := modlet_name
  unique_id := unique_id
  full_path := full_path
  short_path := short_path
  file := row.getD 1 ""
  used_in_main_menu := row.getD 3 ""
  no_translate := row.getD 4 ""
  type := row.getD 2 ""
  key := row.getD 0 ""
  english := row.getD 5 ""
  german := row.getD 6 ""
  latam := row.getD 7 ""
  french := row.getD 8 ""
  italian := row.getD 9 ""
  japanese := row.getD 10 ""
  koreana := row.getD 11 ""
  polish := row.getD 12 ""
  brazilian := row.getD 13 ""
  russian := row.getD 14 ""
  turkish := row.getD 15 ""
  schinese := row.getD 16 ""
  tchinese := row.getD 17 ""
  spanish := row.getD 18 ""
  value := row.getD 19 ""

/-- A non-blank, non-comment csv row — a localization data line. -/
def isDataRow (row : List String) : Bool :=
  !row.isEmpty && !pyStartsWith (row.headD "") "#"

/-- The row loop of `LocalizationParser.parse` (parser_localization.py
53-73), carrying the enumerate line number (header = line 1): blank rows and
`#`-comment rows are skipped silently, rows with fewer than 20 fields are
logged (their line numbers collected here) and skipped, and every other row
is stored.  Returns (stored rows in order, rejected line numbers). -/
def parseRows (useBase64 : Bool) (modlet_name unique_id full_path short_path : String) :
    List (List String) → Nat → List DBProcessor.LocRow × List Nat
  | [], _ => ([], [])
  | row :: rest, n =>
    let acc := parseRows useBase64 modlet_name unique_id full_path short_path rest (n + 1)
    if row.isEmpty then acc
    else if pyStartsWith (row.headD "") "#" then acc
    else if row.length < 20 then (acc.1, n :: acc.2)
    else (DBProcessor.encodeLocRow useBase64
        (mkLocRow modlet_name unique_id full_path short_path row) :: acc.1, acc.2)

/-- Embeds `LocalizationParser.parse` (parser_localization.py 31-76): skip
the header row (`next(csv_reader, None)`), then run the row loop from line
number 2, appending each stored row to the `localization_data` table. -/
def parse (useBase64 : Bool) (table : List DBProcessor.LocRow)
    (rows : List (List String)) (full_path modlet_name unique_id : String) :
    List DBProcessor.LocRow × List Nat :=
  let r := parseRows useBase64 modlet_name unique_id full_path
    (getShortPath full_path) (rows.drop 1) 2
  (table ++ r.1, r.2)

end LocalizationParser

/-- Sample csv rows: a header, a comment line (line 2), a 19-field line
(line 3) and a 21-field line (line 4). -/
def locSampleRows : List (List String) :=
  [["Key", "File", "Type"],
   ["#comment", "x"],
   (List.range 19).map (fun i => toString i),
   (List.range 21).map (fun i => toString i)]


/-! ## Localization output (configuration.py 28-36, modlet_writer.py 174-199) -/

namespace Config

/-- `EXPECTED_HEADER` (configuration.py 30): the static 20-column
localization header. -/
def EXPECTED_HEADER : List String :=
  ["Key", "File", "Type", "UsedInMainMenu", "NoTranslate", "english",
    "Context / Alternate Text", "german", "latam", "french", "italian",
    "japanese", "koreana", "polish", "brazilian", "russian", "turkish",
    "schinese", "tchinese", "spanish"]

/-- `TARGET_LANGUAGES = EXPECTED_HEADER[7:]` (configuration.py 33). -/
def TARGET_LANGUAGES : List String := EXPECTED_HEADER.drop 7

/-- `QUOTED_COLUMNS` (configuration.py 36). -/
def QUOTED_COLUMNS : List String :=
  ["english", "Context / Alternate Text"] ++ TARGET_LANGUAGES

end Config

/-- A localization entry as `get_localization_data` returns it to the
writer: a dict keyed by the `localization_data` column names (decoded
values), embedded as `entry.get(k, '')`. -/
def entryGet (e : DBProcessor.LocRow) (k : String) : String :=
  if k = "modlet_name" then e.modlet_name
  else if k = "unique_id" then e.unique_id
  else if k = "full_path" then e.full_path
  else if k = "short_path" then e.short_path
  else if k = "file" then e.file
  else if k = "used_in_main_menu" then e.used_in_main_menu
  else if k = "no_translate" then e.no_translate
  else if k = "type" then e.type
  else if k = "key" then e.key
  else if k = "english" then e.english
  else if k = "german" then e.german
  else if k = "latam" then e.latam
  else if k = "french" then e.french
  else if k = "italian" then e.italian
  else if k = "japanese" then e.japanese
  else if k = "koreana" then e.koreana
  else if k = "polish" then e.polish
  else if k = "brazilian" then e.brazilian
  else if k = "russian" then e.russian
  else if k = "turkish" then e.turkish
  else if k = "schinese" then e.schinese
  else if k = "tchinese" then e.tchinese
  else if k = "spanish" then e.spanish
  else if k = "value" then e.value
  else ""

namespace ModletWriter

/-- Embeds `ModletWriter._write_localization_file` (modlet_writer.py
174-199): nothing is written when there are no entries; otherwise the static
header row comes first, then one comma-joined line per entry, each column's
value looked up in the entry dict under `column.lower()` and wrapped in
double quotes exactly when it is non-empty and the column is in
`QUOTED_COLUMNS`. -/
def writeLocalizationFile (entries : List DBProcessor.LocRow) : Option String :=
  if entries.isEmpty then none
  else some (pyJoin "," Config.EXPECTED_HEADER ++ "\n"
    ++ String.join (entries.map fun e =>
        pyJoin "," (Config.EXPECTED_HEADER.map fun column =>
          let v := entryGet e (pyLower column)
          if v ≠ "" ∧ column ∈ Config.QUOTED_COLUMNS
          then "\"" ++ v ++ "\"" else v) ++ "\n"))

end ModletWriter

/-! ## File discovery (file_locator.py 38-66, modlet_finder.py 69-81) -/

/-- Python `needle in hay` substring test, over character lists. -/
def pyContains (hay needle : String) : Bool := go hay.toList needle.toList
where
  go : List Char → List Char → Bool
    | [], ns => ns.isEmpty
    | hs@(_ :: t), ns => pyStartsWith.go hs ns || go t ns

/-- Python `str.endswith(suffix)`. -/
def pyEndsWith (s suffix : String) : Bool :=
  pyStartsWith.go s.toList.reverse suffix.toList.reverse

namespace FileLocator

/-- Embeds `FileLocator.locate_files` (file_locator.py 38-66) over an
`os.walk` result, given as (directory path, files) entries in walk order.
The `exclude` entries are tested as SUBSTRINGS OF THE DIRECTORY PATH
(`any(ex in root for ex in exclude)`), never against file names; within a
non-excluded directory, the `.xml` mode collects every file whose name ends
in `.xml`, and the `Localization.txt` mode every file whose lowercased name
is exactly `localization.txt`. -/
def locateFiles (file_type : String) (walk : List (String × List String))
    (exclude : Option (List String)) : List String :=
  walk.flatMap fun dir =>
    if (match exclude with
        | some exs => exs.any fun ex => pyContains dir.1 ex
        | none => false)
    then []
    else dir.2.filterMap fun file =>
      if file_type = ".xml" && pyEndsWith file ".xml" then some (dir.1 ++ "/" ++ file)
      else if file_type = "Localization.txt" && pyLower file = "localization.txt"
      then some (dir.1 ++ "/" ++ file)
      else none

end FileLocator

namespace ModletFinder

/-- Embeds the `locate_files('.xml', path=root, exclude=["ModInfo.xml"])`
call of `ModletFinder._process_modlet_files` (modlet_finder.py 73), whose
comment says it is "explicitly excluding ModInfo.xml"; every returned file
is subsequently parsed and stored (modlet_finder.py 75-76). -/
def processModletXmlTargets (walk : List (String × List String)) : List String :=
  FileLocator.locateFiles ".xml" walk (some ["ModInfo.xml"])

end ModletFinder

/-! ## Integrity checks (xml_writer.py 205-221, modlet_writer.py 240-272) -/

namespace XMLWriter

/-- Embeds `XMLWriter.check_total_filesize` (xml_writer.py 205-221): compare
`sum(written_files.values())` against `original_total_size`; within 5 % →
`True` (debug log), beyond → `False` plus a warning carrying the percentage;
a zero recorded total raises `ZeroDivisionError` at the division.  The
result is `(within_tolerance, percentage_difference)`. -/
def checkTotalFilesize (writtenSizes : List Nat) (originalTotalSize : Nat) :
    Except DBProcessor.PyError (Bool × ℚ) :=
  if originalTotalSize = 0 then .error .zeroDivisionError
  else
    let pct : ℚ :=
      ((((writtenSizes.sum : ℤ) - (originalTotalSize : ℤ)).natAbs : ℚ)
        / (originalTotalSize : ℚ)) * 100
    if pct ≤ 5 then .ok (true, pct) else .ok (false, pct)

end XMLWriter

namespace ModletWriter

/-- Embeds the per-file percentage of `ModletWriter.display_statistics`
(modlet_writer.py 255-256): a signed difference printed in a statistics
table — never compared against any tolerance and never warned about. -/
def sizeDifferencePercent (file_size db_size : Nat) : ℚ :=
  if 0 < db_size then (((file_size : ℚ) - (db_size : ℚ)) / (db_size : ℚ)) * 100 else 0

end ModletWriter

/-! ## Lemmas and claim theorems -/

/-- Mismatch-plus-length-difference count is at most the max of the lengths. -/
lemma diffChanges_le (a b : List Char) :
    ((a.zip b).filter fun p => p.1 ≠ p.2).length + (a.length - b.length) + (b.length - a.length)
      ≤ max a.length b.length := by
  have hz : ((a.zip b).filter fun p => p.1 ≠ p.2).length ≤ min a.length b.length := by
    calc ((a.zip b).filter fun p => p.1 ≠ p.2).length ≤ (a.zip b).length :=
          List.length_filter_le _ _
      _ = min a.length b.length := List.length_zip _ _
  rcases Nat.le_total a.length b.length with h | h
  · have h1 : a.length - b.length = 0 := Nat.sub_eq_zero_of_le h
    have h2 : min a.length b.length = a.length := Nat.min_eq_left h
    have h3 : max a.length b.length = b.length := Nat.max_eq_right h
    omega
  · have h1 : b.length - a.length = 0 := Nat.sub_eq_zero_of_le h
    have h2 : min a.length b.length = b.length := Nat.min_eq_right h
    have h3 : max a.length b.length = a.length := Nat.max_eq_left h
    omega

/-- Generic bound for the shared arithmetic shape of both helpers. -/
lemma diffQuotient_bounds (c m : Nat) (hcm : c ≤ m) :
    0 ≤ (c : ℚ) / (m : ℚ) * 100 ∧ (c : ℚ) / (m : ℚ) * 100 ≤ 100 := by
  constructor
  · positivity
  · rcases Nat.eq_zero_or_pos m with hm | hm
    · subst hm; simp
    · have hmq : (0 : ℚ) < (m : ℚ) := by exact_mod_cast hm
      have h1 : (c : ℚ) / (m : ℚ) ≤ 1 := by
        rw [div_le_one hmq]; exact_mod_cast hcm
      nlinarith

/-- Every part of a `pyJoin` is a contiguous substring of the join. -/
lemma pyJoin_part_infix (sep : String) :
    ∀ (l : List String), ∀ s ∈ l, ∃ pre post, pyJoin sep l = pre ++ s ++ post := by
  intro l
  induction l with
  | nil => intro s hs; cases hs
  | cons x xs ih =>
    intro s hs
    rcases List.mem_cons.mp hs with hs | hs
    · subst hs
      cases xs with
      | nil => exact ⟨"", "", by simp [pyJoin]⟩
      | cons y ys => exact ⟨"", sep ++ pyJoin sep (y :: ys), by simp [pyJoin, String.append_assoc]⟩
    · have hmem : s ∈ xs := hs
      rcases ih s hmem with ⟨pre, post, hpp⟩
      cases xs with
      | nil => cases hmem
      | cons y ys =>
        exact ⟨x ++ sep ++ pre, post, by simp [pyJoin, hpp, String.append_assoc]⟩

/-! ### Grouping lemmas for the combined-file writer -/

/-- Folding one more pair into the grouping is an `upsertTag`. -/
lemma tagGroups_append (l : List (String × String)) (t v : String) :
    DBProcessor.tagGroups (l ++ [(t, v)])
      = DBProcessor.upsertTag (DBProcessor.tagGroups l) t v := by
  simp [DBProcessor.tagGroups, List.foldl_append]

/-- Membership in `firstOccurAux`. -/
lemma mem_firstOccurAux (t : String) :
    ∀ (l seen : List String), t ∈ firstOccurAux l seen ↔ t ∈ l ∧ t ∉ seen := by
  intro l
  induction l with
  | nil => intro seen; simp [firstOccurAux]
  | cons x xs ih =>
    intro seen
    by_cases hx : x ∈ seen
    · rw [firstOccurAux, if_pos hx, ih]
      constructor
      · exact fun h => ⟨List.mem_cons_of_mem _ h.1, h.2⟩
      · rintro ⟨h1, h2⟩
        rcases List.mem_cons.mp h1 with h1 | h1
        · exact absurd (h1 ▸ hx) h2
        · exact ⟨h1, h2⟩
    · rw [firstOccurAux, if_neg hx]
      constructor
      · intro h
        rcases List.mem_cons.mp h with h | h
        · subst h
          exact ⟨List.mem_cons_self _ _, hx⟩
        · have hih := (ih (x :: seen)).mp h
          exact ⟨List.mem_cons_of_mem _ hih.1,
            fun hs => hih.2 (List.mem_cons_of_mem _ hs)⟩
      · rintro ⟨h1, h2⟩
        by_cases htx : t = x
        · subst htx
          exact List.mem_cons_self _ _
        · rcases List.mem_cons.mp h1 with h1 | h1
          · exact absurd h1 htx
          · refine List.mem_cons_of_mem _ ((ih (x :: seen)).mpr ⟨h1, fun hs => ?_⟩)
            rcases List.mem_cons.mp hs with hs | hs
            exacts [htx hs, h2 hs]

/-- Appending one element to the scanned list extends the first-occurrence
key order by that element exactly when it is new. -/
lemma firstOccurAux_append (t : String) :
    ∀ (l seen : List String),
      firstOccurAux (l ++ [t]) seen
        = if t ∈ l ∨ t ∈ seen then firstOccurAux l seen
          else firstOccurAux l seen ++ [t] := by
  intro l
  induction l with
  | nil =>
    intro seen
    by_cases h : t ∈ seen <;> simp [firstOccurAux, h]
  | cons x xs ih =>
    intro seen
    by_cases hx : x ∈ seen
    · rw [List.cons_append, firstOccurAux, if_pos hx, firstOccurAux, if_pos hx, ih]
      have hcond : (t ∈ xs ∨ t ∈ seen) ↔ (t ∈ x :: xs ∨ t ∈ seen) := by
        constructor
        · rintro (h | h)
          exacts [Or.inl (List.mem_cons_of_mem _ h), Or.inr h]
        · rintro (h | h)
          · rcases List.mem_cons.mp h with h | h
            exacts [Or.inr (h ▸ hx), Or.inl h]
          · exact Or.inr h
      by_cases hc : t ∈ xs ∨ t ∈ seen
      · rw [if_pos hc, if_pos (hcond.mp hc)]
      · rw [if_neg hc, if_neg (fun h => hc (hcond.mpr h))]
    · rw [List.cons_append, firstOccurAux, if_neg hx, firstOccurAux, if_neg hx, ih]
      have hcond : (t ∈ xs ∨ t ∈ x :: seen) ↔ (t ∈ x :: xs ∨ t ∈ seen) := by
        simp only [List.mem_cons]
        tauto
      by_cases hc : t ∈ xs ∨ t ∈ x :: seen
      · rw [if_pos hc, if_pos (hcond.mp hc)]
      · rw [if_neg hc, if_neg (fun h => hc (hcond.mpr h)), List.cons_append]

/-- The first-occurrence key list never repeats a key. -/
lemma firstOccurAux_nodup : ∀ (l seen : List String), (firstOccurAux l seen).Nodup := by
  intro l
  induction l with
  | nil => intro seen; simp [firstOccurAux]
  | cons x xs ih =>
    intro seen
    by_cases hx : x ∈ seen
    · rw [firstOccurAux, if_pos hx]; exact ih seen
    · rw [firstOccurAux, if_neg hx]
      refine List.nodup_cons.mpr ⟨fun hmem => ?_, ih (x :: seen)⟩
      exact ((mem_firstOccurAux x xs (x :: seen)).mp hmem).2 (List.mem_cons_self x seen)

/-- Membership in `firstOccur`. -/
lemma mem_firstOccur (t : String) (l : List String) :
    t ∈ firstOccur l ↔ t ∈ l := by
  rw [firstOccur, mem_firstOccurAux]
  simp

/-- The first-occurrence key list is duplicate-free. -/
lemma firstOccur_nodup (l : List String) : (firstOccur l).Nodup :=
  firstOccurAux_nodup l []

/-- `upsertTag` on a keyed map: update in place when the key exists, append a
new singleton group otherwise. -/
lemma upsertTag_map (f : String → List String) (t v : String) :
    ∀ (ts : List String), ts.Nodup →
      DBProcessor.upsertTag (ts.map fun s => (s, f s)) t v
        = if t ∈ ts then ts.map (fun s => (s, if s = t then f s ++ [v] else f s))
          else (ts.map fun s => (s, f s)) ++ [(t, [v])] := by
  intro ts
  induction ts with
  | nil => intro _; simp [DBProcessor.upsertTag]
  | cons x ts ih =>
    intro hnd
    have hxnotin : x ∉ ts := (List.nodup_cons.mp hnd).1
    have hndts : ts.Nodup := (List.nodup_cons.mp hnd).2
    by_cases hxt : x = t
    · subst hxt
      rw [List.map_cons, DBProcessor.upsertTag, if_pos rfl,
        if_pos (List.mem_cons_self x ts), List.map_cons, if_pos rfl]
      congr 1
      refine List.map_congr_left fun s hs => ?_
      have hsx : ¬s = x := fun h => hxnotin (h ▸ hs)
      rw [if_neg hsx]
    · rw [List.map_cons, DBProcessor.upsertTag, if_neg hxt, ih hndts]
      by_cases htts : t ∈ ts
      · rw [if_pos htts, if_pos (List.mem_cons_of_mem _ htts), List.map_cons,
          if_neg hxt]
      · rw [if_neg htts, if_neg (fun h => by
            rcases List.mem_cons.mp h with h | h
            exacts [hxt h.symm, htts h]), List.cons_append]

/-- Flattening after an `upsertTag` permutes to flattening plus the new
value. -/
lemma flatten_upsertTag_perm (t v : String) :
    ∀ (g : List (String × List String)),
      List.Perm (((DBProcessor.upsertTag g t v).map Prod.snd).flatten)
        (((g.map Prod.snd).flatten) ++ [v]) := by
  intro g
  induction g with
  | nil => simp [DBProcessor.upsertTag]
  | cons sv rest ih =>
    obtain ⟨s, vs⟩ := sv
    by_cases hst : s = t
    · rw [DBProcessor.upsertTag, if_pos hst]
      simp only [List.map_cons, List.flatten_cons]
      rw [List.append_assoc, List.append_assoc]
      exact List.Perm.append_left vs (List.perm_append_comm)
    · rw [DBProcessor.upsertTag, if_neg hst]
      simp only [List.map_cons, List.flatten_cons]
      rw [List.append_assoc]
      exact List.Perm.append_left vs ih

/-- All recorded values survive grouping, as a permutation. -/
lemma tagGroups_flatten_perm (l : List (String × String)) :
    List.Perm (((DBProcessor.tagGroups l).map Prod.snd).flatten) (l.map Prod.snd) := by
  induction l using List.reverseRecOn with
  | nil => simp [DBProcessor.tagGroups]
  | append_singleton l x ih =>
    obtain ⟨t, v⟩ := x
    rw [tagGroups_append]
    refine (flatten_upsertTag_perm t v _).trans ?_
    rw [List.map_append]
    exact ih.append_right _

/-- The iterative grouping equals its closed form. -/
lemma tagGroups_eq_spec (l : List (String × String)) :
    DBProcessor.tagGroups l = tagGroupsSpec l := by
  induction l using List.reverseRecOn with
  | nil => simp [DBProcessor.tagGroups, tagGroupsSpec, firstOccur, firstOccurAux]
  | append_singleton l x ih =>
    obtain ⟨t, v⟩ := x
    have hkeys : (l ++ [(t, v)]).map Prod.fst = l.map Prod.fst ++ [t] := by simp
    have hfo : firstOccur (l.map Prod.fst ++ [t])
        = if t ∈ l.map Prod.fst then firstOccur (l.map Prod.fst)
          else firstOccur (l.map Prod.fst) ++ [t] := by
      rw [firstOccur, firstOccurAux_append]
      simp only [List.not_mem_nil, or_false]
      rfl
    have hfilt_ne : ∀ s : String, s ≠ t →
        List.filter (fun x => x.1 == s) (l ++ [(t, v)])
          = List.filter (fun x => x.1 == s) l := by
      intro s hst
      rw [List.filter_append]
      have h1 : List.filter (fun x : String × String => x.1 == s) [(t, v)] = [] := by
        have : ((t, v).1 == s) = false := by
          simp only [beq_eq_false_iff_ne]
          exact fun h => hst h.symm
        simp [List.filter_cons, this]
      rw [h1, List.append_nil]
    have hfilt_eq :
        List.filter (fun x => x.1 == t) (l ++ [(t, v)])
          = List.filter (fun x => x.1 == t) l ++ [(t, v)] := by
      rw [List.filter_append]
      simp
    rw [tagGroups_append, ih, tagGroupsSpec, tagGroupsSpec,
      upsertTag_map _ t v _ (firstOccur_nodup _), hkeys, hfo]
    by_cases ht : t ∈ l.map Prod.fst
    · rw [if_pos ht, if_pos ((mem_firstOccur t _).mpr ht)]
      refine List.map_congr_left fun s _ => ?_
      by_cases hst : s = t
      · subst hst
        rw [if_pos rfl, hfilt_eq]
        simp
      · rw [if_neg hst, hfilt_ne s hst]
    · rw [if_neg ht, if_neg (fun h => ht ((mem_firstOccur t _).mp h)), List.map_append]
      congr 1
      · refine List.map_congr_left fun s hs => ?_
        have hst : s ≠ t := fun h => ht (h ▸ (mem_firstOccur s _).mp hs)
        rw [hfilt_ne s hst]
      · have hl : List.filter (fun x => x.1 == t) l = [] := by
          refine List.filter_eq_nil_iff.mpr fun x hx => ?_
          simp only [beq_iff_eq]
          exact fun h => ht (h ▸ List.mem_map_of_mem Prod.fst hx)
        simp only [List.map_cons, List.map_nil, hfilt_eq, hl]
        simp

/-- Looking up the upserted path yields the upserted group list. -/
lemma lookupGroups_upsertPath_same (p tag v : String) :
    ∀ acc, DBProcessor.lookupGroups (DBProcessor.upsertPath acc p tag v) p
      = some (DBProcessor.upsertTag ((DBProcessor.lookupGroups acc p).getD []) tag v) := by
  intro acc
  induction acc with
  | nil => simp [DBProcessor.upsertPath, DBProcessor.lookupGroups, DBProcessor.upsertTag]
  | cons qg rest ih =>
    obtain ⟨q, groups⟩ := qg
    by_cases hq : q = p
    · rw [DBProcessor.upsertPath, if_pos hq, DBProcessor.lookupGroups, if_pos hq,
        DBProcessor.lookupGroups, if_pos hq]
      simp
    · rw [DBProcessor.upsertPath, if_neg hq, DBProcessor.lookupGroups, if_neg hq,
        DBProcessor.lookupGroups, if_neg hq, ih]

/-- Upserting under a different path leaves a lookup unchanged. -/
lemma lookupGroups_upsertPath_other (p tag v q : String) (hq : q ≠ p) :
    ∀ acc, DBProcessor.lookupGroups (DBProcessor.upsertPath acc p tag v) q
      = DBProcessor.lookupGroups acc q := by
  intro acc
  induction acc with
  | nil => simp [DBProcessor.upsertPath, DBProcessor.lookupGroups, Ne.symm hq]
  | cons qg rest ih =>
    obtain ⟨q', groups⟩ := qg
    by_cases hq' : q' = p
    · rw [DBProcessor.upsertPath, if_pos hq', DBProcessor.lookupGroups,
        DBProcessor.lookupGroups]
      have : ¬q' = q := fun h => hq (h ▸ hq')
      rw [if_neg this, if_neg this]
    · rw [DBProcessor.upsertPath, if_neg hq', DBProcessor.lookupGroups,
        DBProcessor.lookupGroups]
      by_cases hq'' : q' = q
      · rw [if_pos hq'', if_pos hq'']
      · rw [if_neg hq'', if_neg hq'', ih]

/-- One more row extends the pure dict by one upsert. -/
lemma pureXmlDict_append (dec : DBProcessor.XmlRow → String)
    (rows : List DBProcessor.XmlRow) (r : DBProcessor.XmlRow) :
    DBProcessor.pureXmlDict dec (rows ++ [r])
      = DBProcessor.upsertPath (DBProcessor.pureXmlDict dec rows)
          r.short_path r.outer_tag (dec r) := by
  simp [DBProcessor.pureXmlDict, List.foldl_append]

/-- Per-path content of the pure dict: the grouping of that path's
(tag, decoded-content) pairs in row order. -/
lemma pureXmlDict_lookup (dec : DBProcessor.XmlRow → String) (p : String)
    (rows : List DBProcessor.XmlRow) :
    ((DBProcessor.lookupGroups (DBProcessor.pureXmlDict dec rows) p).getD [])
      = DBProcessor.tagGroups
          ((rows.filter fun r => r.short_path == p).map fun r => (r.outer_tag, dec r)) := by
  induction rows using List.reverseRecOn with
  | nil => simp [DBProcessor.pureXmlDict, DBProcessor.lookupGroups, DBProcessor.tagGroups]
  | append_singleton rows r ih =>
    rw [pureXmlDict_append, List.filter_append]
    by_cases hp : r.short_path = p
    · rw [hp, lookupGroups_upsertPath_same, Option.getD_some, ih]
      have hf : List.filter (fun r => r.short_path == p) [r] = [r] := by
        simp [List.filter_cons, hp]
      rw [hf, List.map_append, List.map_cons, List.map_nil, tagGroups_append]
    · rw [lookupGroups_upsertPath_other _ _ _ _ (fun h => hp h.symm), ih]
      have hf : List.filter (fun r => r.short_path == p) [r] = [] := by
        simp [List.filter_cons, hp]
      rw [hf, List.append_nil]

/-- When every row's content decodes, `get_xml_data` succeeds and builds the
pure dict. -/
lemma getXmlData_ok (useBase64 : Bool) (dec : DBProcessor.XmlRow → String) :
    ∀ (rows : List DBProcessor.XmlRow) acc,
      (∀ r ∈ rows, DBProcessor.decodeData useBase64 r.content = .ok (dec r)) →
      DBProcessor.getXmlData useBase64 rows acc
        = .ok (rows.foldl (fun a r =>
            DBProcessor.upsertPath a r.short_path r.outer_tag (dec r)) acc) := by
  intro rows
  induction rows with
  | nil => intro acc _; simp [DBProcessor.getXmlData]
  | cons r rest ih =>
    intro acc h
    rw [DBProcessor.getXmlData, h r (List.mem_cons_self _ _), List.foldl_cons]
    exact ih _ fun r' hr' => h r' (List.mem_cons_of_mem _ hr')

/-- C3 counterexample: storing the SAME localization row twice — identical
translation key, identical source path, same owning modlet — leaves TWO rows
in the table, not one: the second store does not replace the first. -/
theorem C3_counterexample_same_modlet_row_not_replaced :
    (DBProcessor.storeLocalizationData true
        (DBProcessor.storeLocalizationData true [] sampleLocRow) sampleLocRow).length = 2
    ∧ (DBProcessor.storeLocalizationData true
        (DBProcessor.storeLocalizationData true [] sampleLocRow) sampleLocRow).length ≠ 1 := by
  constructor <;> decide

/-- C3 amended: `store_localization_data` never deduplicates or replaces at
all — rows sharing a key are retained both across distinct modlets AND
within the same modlet and source path: every store appends exactly one
(fieldwise-encoded) row and leaves all previously stored rows in place. -/
theorem C3_store_localization_always_appends (useBase64 : Bool)
    (table : List DBProcessor.LocRow) (r : DBProcessor.LocRow) :
    DBProcessor.storeLocalizationData useBase64 table r
        = table ++ [DBProcessor.encodeLocRow useBase64 r]
    ∧ (DBProcessor.storeLocalizationData useBase64 table r).length = table.length + 1
    ∧ (DBProcessor.storeLocalizationData useBase64 table r).take table.length = table := by
  refine ⟨rfl, by simp [DBProcessor.storeLocalizationData], ?_⟩
  simp [DBProcessor.storeLocalizationData]

/-- C1 counterexample: a well-formed document whose root has N = 2 immediate
children yields exactly ONE stored content block (whose text is the two
serialized children joined by a newline), not two. -/
theorem C1_counterexample_two_children_one_block :
    (XMLParser.parse true [] sampleRootTwoChildren "src/A/Config/items.xml" "A" "uidA").length = 1
    ∧ sampleRootTwoChildren.children.length = 2
    ∧ (XMLParser.parse true [] sampleRootTwoChildren "src/A/Config/items.xml" "A" "uidA").map
        (fun r => DBProcessor.decodeData true r.content)
        = [Except.ok "<item name=\"gun\" />\n<block>hi</block>"] := by
  refine ⟨by decide, by decide, by decide⟩

/-- C1 amended: for every parsed document, `XMLParser.parse` stores exactly
one content block per source file: its tag is the root's tag, and its text is
the newline-join of the stripped serializations of the root's N immediate
children — each child's serialized text (with its own tag and attributes,
without the root wrapper) occurring contiguously inside that single block. -/
theorem C1_parse_stores_one_joined_block (useBase64 : Bool)
    (table : List DBProcessor.XmlRow) (root : Element)
    (file_path modlet_name unique_id : String) :
    XMLParser.parse useBase64 table root file_path modlet_name unique_id
        = table ++
          [{ modlet_name := modlet_name, unique_id := unique_id,
             full_path := file_path,
             short_path := XMLParser.getShortPath file_path,
             outer_tag := root.tag,
             content := DBProcessor.encodeData useBase64
               (pyJoin "\n" (root.children.map fun c => pyStrip (serializeElement c))) }]
    ∧ ∀ c ∈ root.children, ∃ pre post,
        pyJoin "\n" (root.children.map fun c => pyStrip (serializeElement c))
          = pre ++ pyStrip (serializeElement c) ++ post := by
  refine ⟨rfl, fun c hc => ?_⟩
  exact pyJoin_part_infix "\n" _ (pyStrip (serializeElement c))
    (List.mem_map_of_mem _ hc)

/-- C1 amended witness: on the sample two-child document the single stored
block contains the first child's serialization contiguously. -/
theorem C1_parse_stores_one_joined_block_witness :
    XMLParser.parse true [] sampleRootTwoChildren "src/A/Config/items.xml" "A" "uidA"
        = [] ++
          [{ modlet_name := "A", unique_id := "uidA",
             full_path := "src/A/Config/items.xml",
             short_path := XMLParser.getShortPath "src/A/Config/items.xml",
             outer_tag := sampleRootTwoChildren.tag,
             content := DBProcessor.encodeData true
               (pyJoin "\n" (sampleRootTwoChildren.children.map fun c =>
                 pyStrip (serializeElement c))) }]
    ∧ ∃ pre post,
        pyJoin "\n" (sampleRootTwoChildren.children.map fun c =>
            pyStrip (serializeElement c))
          = pre ++ pyStrip (serializeElement
              (.mk "item" [("name", "gun")] none [] (some "\n  "))) ++ post := by
  have h := C1_parse_stores_one_joined_block true [] sampleRootTwoChildren
    "src/A/Config/items.xml" "A" "uidA"
  exact ⟨h.1, h.2 _ (by simp [sampleRootTwoChildren, Element.children])⟩

/-- C9: claim says decoding never raises and degrades to a truncated value on
failure.  The code raises an uncaught `UnicodeEncodeError` on any stored
value containing a non-ASCII character (db_processor.py 101 encodes with the
ASCII codec before catching only `binascii.Error` and `UnicodeDecodeError`),
whereas the handler's truncation branch (db_processor.py 107-108) would have
produced the documented truncated value.  Evaluated at a stored value of 60
copies of `é` under the default base64 encoding. -/
theorem C9_decode_raises_on_non_ascii :
    DBProcessor.decodeData true (String.mk (List.replicate 60 'é'))
        = .error .unicodeEncodeError
    ∧ DBProcessor.decodeFallback (String.mk (List.replicate 60 'é'))
        = String.mk (List.replicate 50 'é') ++ "..."
    ∧ (∀ data : String, DBProcessor.allAscii data →
        ∃ s, DBProcessor.decodeData true data = .ok s) := by
  refine ⟨by decide, by decide, fun data h => ?_⟩
  by_cases he : data = ""
  · exact ⟨"", by simp [DBProcessor.decodeData, he]⟩
  · rcases hb : b64Decode data.data with _ | bytes
    · exact ⟨DBProcessor.decodeFallback data, by simp [DBProcessor.decodeData, he, h, hb]⟩
    · rcases hu : utf8Decode bytes with _ | chars
      · exact ⟨DBProcessor.decodeFallback data, by simp [DBProcessor.decodeData, he, h, hb, hu]⟩
      · exact ⟨String.mk chars, by simp [DBProcessor.decodeData, he, h, hb, hu]⟩

/-- C6 counterexample: two modlets with differing `(Name, Version)` pairs —
`("a_b", "c")` and `("a", "b_c")` — receive the SAME generated identifier,
because both join to the string `"a_b_c"` before hashing. -/
theorem C6_counterexample_distinct_pairs_same_id :
    DBProcessor.generateUniqueId "a_b" "c" = DBProcessor.generateUniqueId "a" "b_c"
    ∧ (("a_b", "c") : String × String) ≠ ("a", "b_c") := by
  constructor
  · show md5Hex ("a_b" ++ "_" ++ "c") = md5Hex ("a" ++ "_" ++ "b_c")
    exact congrArg md5Hex (by decide)
  · decide

/-- C6 amended: the generated identifier is a function of the joined string
`Name_Version`: whenever two modlets agree on that string — in particular
whenever they have identical Name and identical Version — their identifiers
are equal.  Distinctness for differing pairs does NOT hold in general. -/
theorem C6_id_function_of_name_version (n1 v1 n2 v2 : String)
    (h : n1 ++ "_" ++ v1 = n2 ++ "_" ++ v2) :
    DBProcessor.generateUniqueId n1 v1 = DBProcessor.generateUniqueId n2 v2 :=
  congrArg md5Hex h

/-- C6 witness: identical name/version pairs produce equal identifiers. -/
theorem C6_id_function_of_name_version_witness :
    DBProcessor.generateUniqueId "Alpha" "1.0" = DBProcessor.generateUniqueId "Alpha" "1.0" :=
  C6_id_function_of_name_version "Alpha" "1.0" "Alpha" "1.0" rfl

/-- C2 counterexample: modlet A records a `recipes` block then a `blocks`
block for short path `x.xml`; modlet B then records a `recipes` block for
the same path.  The combined file's block sequence is r1, r2, b1 — modlet
B's block lands BEFORE modlet A's second block, and the recorded insertion
order r1, b1, r2 is not preserved, because the writer regroups blocks by
structural tag. -/
theorem C2_counterexample_regrouped_blocks :
    ModletWriter.writeXmlBlocks true sampleXmlRows "x.xml"
        = .ok ["<r1 />", "<r2 />", "<b1 />"]
    ∧ sampleXmlRows.map (fun r => DBProcessor.decodeData true r.content)
        = [.ok "<r1 />", .ok "<b1 />", .ok "<r2 />"]
    ∧ (["<r1 />", "<r2 />", "<b1 />"] : List String) ≠ ["<r1 />", "<b1 />", "<r2 />"] := by
  refine ⟨by decide, by decide, by decide⟩

/-- C2 amended: for each logical short path the Merge Assembler writes every
recorded block into the single combined file (the written sequence is a
permutation of the recorded one), but NOT in plain insertion order: blocks
are regrouped by structural tag — tags ordered by first appearance, and only
within one tag group does insertion order survive.  Consequently A-before-B
holds when all of the path's blocks share one structural tag, not in
general. -/
theorem C2_blocks_grouped_by_tag_not_insertion_order (useBase64 : Bool)
    (rows : List DBProcessor.XmlRow) (dec : DBProcessor.XmlRow → String)
    (p : String)
    (hdec : ∀ r ∈ rows, DBProcessor.decodeData useBase64 r.content = .ok (dec r)) :
    ∃ blocks : List String,
      ModletWriter.writeXmlBlocks useBase64 rows p = .ok blocks
      ∧ blocks
          = ((firstOccur ((rows.filter fun r => r.short_path == p).map
                fun r => r.outer_tag)).flatMap
              fun t => (((rows.filter fun r => r.short_path == p).filter
                fun r => r.outer_tag == t).map dec))
      ∧ List.Perm blocks ((rows.filter fun r => r.short_path == p).map dec) := by
  rw [ModletWriter.writeXmlBlocks, getXmlData_ok useBase64 dec rows [] hdec]
  refine ⟨_, rfl, ?_, ?_⟩
  · show (((DBProcessor.lookupGroups (DBProcessor.pureXmlDict dec rows) p).getD
        []).map Prod.snd).flatten = _
    rw [pureXmlDict_lookup, tagGroups_eq_spec, tagGroupsSpec, List.flatMap_def,
      List.map_map]
    have hk : List.map Prod.fst ((rows.filter fun r => r.short_path == p).map
          fun r => (r.outer_tag, dec r))
        = (rows.filter fun r => r.short_path == p).map fun r => r.outer_tag := by
      rw [List.map_map]
      rfl
    rw [hk]
    congr 1
    refine List.map_congr_left fun t _ => ?_
    show ((((rows.filter fun r => r.short_path == p).map
        fun r => (r.outer_tag, dec r)).filter fun x => x.1 == t).map Prod.snd) = _
    rw [List.filter_map, List.map_map]
    rfl
  · show List.Perm ((((DBProcessor.lookupGroups (DBProcessor.pureXmlDict dec rows)
        p).getD []).map Prod.snd).flatten) _
    rw [pureXmlDict_lookup]
    refine (tagGroups_flatten_perm _).trans ?_
    rw [List.map_map]
    rfl

/-- C2 witness: the amended grouping law evaluated on the three-row sample
table. -/
theorem C2_blocks_grouped_by_tag_not_insertion_order_witness :
    ∃ blocks : List String,
      ModletWriter.writeXmlBlocks true sampleXmlRows "x.xml" = .ok blocks
      ∧ blocks
          = ((firstOccur ((sampleXmlRows.filter fun r => r.short_path == "x.xml").map
                fun r => r.outer_tag)).flatMap
              fun t => (((sampleXmlRows.filter fun r => r.short_path == "x.xml").filter
                fun r => r.outer_tag == t).map
                  fun r => (DBProcessor.decodeData true r.content).toOption.getD ""))
      ∧ List.Perm blocks ((sampleXmlRows.filter fun r => r.short_path == "x.xml").map
          fun r => (DBProcessor.decodeData true r.content).toOption.getD "") :=
  C2_blocks_grouped_by_tag_not_insertion_order true sampleXmlRows
    (fun r => (DBProcessor.decodeData true r.content).toOption.getD "") "x.xml"
    (by decide)

/-! ### Row-loop characterization for the localization parser -/

/-- The row loop stores exactly the ≥20-field data rows (in order) and
collects the line numbers of the short data rows. -/
lemma parseRows_spec (b : Bool) (mn uid fp sp : String) :
    ∀ (rows : List (List String)) (n : Nat),
      LocalizationParser.parseRows b mn uid fp sp rows n
        = ((rows.filter fun row =>
              LocalizationParser.isDataRow row && decide (20 ≤ row.length)).map
            fun row => DBProcessor.encodeLocRow b (LocalizationParser.mkLocRow mn uid fp sp row),
           ((List.enumFrom n rows).filter fun q =>
              LocalizationParser.isDataRow q.2 && decide (q.2.length < 20)).map Prod.fst) := by
  intro rows
  induction rows with
  | nil => intro n; simp [LocalizationParser.parseRows]
  | cons row rest ih =>
    intro n
    rw [LocalizationParser.parseRows, ih (n + 1)]
    by_cases he : row.isEmpty
    · have hd : LocalizationParser.isDataRow row = false := by
        simp [LocalizationParser.isDataRow, he]
      simp [he, List.enumFrom_cons, hd]
    · by_cases hc : pyStartsWith (row.head?.getD "") "#"
      · have hd : LocalizationParser.isDataRow row = false := by
          simp [LocalizationParser.isDataRow, he, hc]
        simp [he, hc, List.enumFrom_cons, hd]
      · have hd : LocalizationParser.isDataRow row = true := by
          simp [LocalizationParser.isDataRow, he, hc]
        by_cases hl : row.length < 20
        · have h20 : ¬(20 ≤ row.length) := by omega
          simp [he, hc, hl, List.enumFrom_cons, hd, h20]
        · have h20 : 20 ≤ row.length := by omega
          simp [he, hc, hl, List.enumFrom_cons, hd, h20]

/-- `getD` below the cut point is unaffected by `take`. -/
lemma getD_take_lt (l : List String) (i n : Nat) (h : i < n) :
    (l.take n).getD i "" = l.getD i "" := by
  induction l generalizing i n with
  | nil => simp
  | cons x xs ih =>
    cases n with
    | zero => omega
    | succ n =>
      cases i with
      | zero => simp
      | succ i =>
        simp only [List.take_succ_cons, List.getD_cons_succ]
        exact ih i n (by omega)

/-- C5: for every localization data line (non-blank, non-comment), the Row
Normalizer stores the row exactly when it resolves to at least 20 fields —
so a 19-field row is rejected (its line number logged, the rest of the file
still processed, since the stored rows are a filter over ALL data rows) and
a 20-or-more-field row is accepted, consuming only its first 20 fields. -/
theorem C5_row_column_count_rule (useBase64 : Bool)
    (table : List DBProcessor.LocRow) (rows : List (List String))
    (full_path modlet_name unique_id : String) :
    (LocalizationParser.parse useBase64 table rows full_path modlet_name unique_id).1
        = table ++ ((rows.drop 1).filter fun row =>
            LocalizationParser.isDataRow row && decide (20 ≤ row.length)).map
            (fun row => DBProcessor.encodeLocRow useBase64
              (LocalizationParser.mkLocRow modlet_name unique_id full_path
                (LocalizationParser.getShortPath full_path) row))
    ∧ (LocalizationParser.parse useBase64 table rows full_path modlet_name unique_id).2
        = ((List.enumFrom 2 (rows.drop 1)).filter fun q =>
            LocalizationParser.isDataRow q.2 && decide (q.2.length < 20)).map Prod.fst
    ∧ (∀ row : List String, row.length = 19 →
        (LocalizationParser.isDataRow row && decide (20 ≤ row.length)) = false)
    ∧ (∀ row : List String, 20 ≤ row.length →
        LocalizationParser.mkLocRow modlet_name unique_id full_path
            (LocalizationParser.getShortPath full_path) row
          = LocalizationParser.mkLocRow modlet_name unique_id full_path
              (LocalizationParser.getShortPath full_path) (row.take 20)) := by
  refine ⟨?_, ?_, ?_, ?_⟩
  · rw [LocalizationParser.parse]
    rw [parseRows_spec]
  · rw [LocalizationParser.parse]
    rw [parseRows_spec]
  · intro row hrow
    simp [hrow]
  · intro row _
    have h20 : ∀ i, i < 20 → (row.take 20).getD i "" = row.getD i "" :=
      fun i hi => getD_take_lt row i 20 hi
    simp [LocalizationParser.mkLocRow, h20]

/-- C5 witness: on the sample rows, the 19-field line 3 is rejected and
logged while the 21-field line 4 is stored with its 21st field ignored. -/
theorem C5_row_column_count_rule_witness :
    (LocalizationParser.parse false [] locSampleRows
        "src/A/Config/Localization.txt" "A" "uidA").1
      = [LocalizationParser.mkLocRow "A" "uidA" "src/A/Config/Localization.txt"
          "Config/Localization.txt" ((List.range 21).map (fun i => toString i))]
    ∧ (LocalizationParser.parse false [] locSampleRows
        "src/A/Config/Localization.txt" "A" "uidA").2 = [3] := by
  have h := C5_row_column_count_rule false [] locSampleRows
    "src/A/Config/Localization.txt" "A" "uidA"
  exact ⟨h.1.trans (by decide), h.2.1.trans (by decide)⟩

set_option maxRecDepth 8000 in
/-- C4: the combined localization table is emitted with the static
20-column header row first, then one row per retained LocalizationRow; in
each emitted row exactly the english column, the `Context / Alternate Text`
column and every target-language column are wrapped in double quotes when
their value is non-empty, all other columns are unquoted, and each column's
value is looked up case-insensitively (via `column.lower()`) in the entry. -/
theorem C4_localization_emission (entries : List DBProcessor.LocRow)
    (h : entries ≠ []) :
    ModletWriter.writeLocalizationFile entries
      = some ("Key,File,Type,UsedInMainMenu,NoTranslate,english,Context / Alternate Text,german,latam,french,italian,japanese,koreana,polish,brazilian,russian,turkish,schinese,tchinese,spanish"
        ++ "\n"
        ++ String.join (entries.map fun e =>
            pyJoin "," (["Key", "File", "Type", "UsedInMainMenu", "NoTranslate",
              "english", "Context / Alternate Text", "german", "latam", "french",
              "italian", "japanese", "koreana", "polish", "brazilian", "russian",
              "turkish", "schinese", "tchinese", "spanish"].map fun column =>
              let v := entryGet e (pyLower column)
              if v ≠ "" ∧ column ∈ (["english", "Context / Alternate Text",
                  "german", "latam", "french", "italian", "japanese", "koreana",
                  "polish", "brazilian", "russian", "turkish", "schinese",
                  "tchinese", "spanish"] : List String)
              then "\"" ++ v ++ "\"" else v) ++ "\n"))
    ∧ Config.QUOTED_COLUMNS
        = ["english", "Context / Alternate Text", "german", "latam", "french",
            "italian", "japanese", "koreana", "polish", "brazilian", "russian",
            "turkish", "schinese", "tchinese", "spanish"] := by
  have hq : Config.QUOTED_COLUMNS
      = ["english", "Context / Alternate Text", "german", "latam", "french",
          "italian", "japanese", "koreana", "polish", "brazilian", "russian",
          "turkish", "schinese", "tchinese", "spanish"] := by decide
  have hE : Config.EXPECTED_HEADER
      = ["Key", "File", "Type", "UsedInMainMenu", "NoTranslate", "english",
          "Context / Alternate Text", "german", "latam", "french", "italian",
          "japanese", "koreana", "polish", "brazilian", "russian", "turkish",
          "schinese", "tchinese", "spanish"] := by decide
  have hh : pyJoin "," Config.EXPECTED_HEADER
      = "Key,File,Type,UsedInMainMenu,NoTranslate,english,Context / Alternate Text,german,latam,french,italian,japanese,koreana,polish,brazilian,russian,turkish,schinese,tchinese,spanish" := by
    decide
  have hne : ¬entries.isEmpty = true := by
    simp only [List.isEmpty_iff]
    exact h
  refine ⟨?_, hq⟩
  rw [ModletWriter.writeLocalizationFile, if_neg hne, hh, hE, hq]

set_option maxRecDepth 8000 in
/-- C4 witness: the emission evaluated on a single sample entry — the
`english` value is the only non-empty quoted-column value, so it alone is
wrapped in quotes. -/
theorem C4_localization_emission_witness :
    ModletWriter.writeLocalizationFile [sampleLocRow]
      = some "Key,File,Type,UsedInMainMenu,NoTranslate,english,Context / Alternate Text,german,latam,french,italian,japanese,koreana,polish,brazilian,russian,turkish,schinese,tchinese,spanish\nKeyX,items,Item,,,\"Hello\",,,,,,,,,,,,,,\n" := by
  have h := C4_localization_emission [sampleLocRow] (by decide)
  exact h.1.trans (by decide)

/-- C7: the modlet file discovery is supposed to exclude the metadata
descriptor, and its call site even passes `exclude=["ModInfo.xml"]` with a
comment saying so — but `locate_files` applies `exclude` as substrings of
the DIRECTORY path only, so for an ordinary modlet directory the descriptor
`ModInfo.xml` ends with `.xml`, IS collected as an XML fragment file, and is
then parsed and stored (which is why `display_db_statistics` has to filter
`short_path != 'ModInfo.xml'` back out, db_processor.py 305). -/
theorem C7_modinfo_collected_despite_exclude :
    ModletFinder.processModletXmlTargets [("mods/Alpha", ["ModInfo.xml", "items.xml"])]
        = ["mods/Alpha/ModInfo.xml", "mods/Alpha/items.xml"]
    ∧ "mods/Alpha/ModInfo.xml" ∈
        ModletFinder.processModletXmlTargets [("mods/Alpha", ["ModInfo.xml", "items.xml"])] := by
  constructor <;> decide

/-- C8 counterexample: two files, one written 95 % larger than its recorded
size and the other 95 % smaller (sizes 195 and 5 against recorded 100 each).
The per-file deviation of 95 % exceeds the 5 % tolerance, yet the run emits
NO warning: `check_total_filesize` only compares the aggregate (200 vs 200,
a 0 % difference, within tolerance) and `display_statistics` merely prints
the per-file percentages without flagging them. -/
theorem C8_counterexample_no_per_file_flagging :
    ModletWriter.sizeDifferencePercent 195 100 = 95
    ∧ (5 : ℚ) < ModletWriter.sizeDifferencePercent 195 100
    ∧ XMLWriter.checkTotalFilesize [195, 5] 200 = .ok (true, 0) := by
  refine ⟨?_, ?_, ?_⟩
  · rw [ModletWriter.sizeDifferencePercent, if_pos (by norm_num)]
    norm_num
  · rw [ModletWriter.sizeDifferencePercent, if_pos (by norm_num)]
    norm_num
  · rw [XMLWriter.checkTotalFilesize, if_neg (by norm_num)]
    norm_num

/-- C8 amended: the Integrity Reporter's size check is aggregate-only: with
a nonzero recorded total it never raises, computes the percentage difference
of the summed written sizes against the recorded total, and flags — with a
warning only, never failing the run (the boolean result is ignored by its
caller) — exactly when that aggregate difference strictly exceeds 5 %.
Per-file deviations are displayed as statistics but never flagged. -/
theorem C8_total_size_check_advisory (writtenSizes : List Nat) (orig : Nat)
    (h : 0 < orig) :
    ∃ pct : ℚ,
      pct = ((((writtenSizes.sum : ℤ) - (orig : ℤ)).natAbs : ℚ) / (orig : ℚ)) * 100
      ∧ ((pct ≤ 5 ∧ XMLWriter.checkTotalFilesize writtenSizes orig = .ok (true, pct))
        ∨ (5 < pct ∧ XMLWriter.checkTotalFilesize writtenSizes orig = .ok (false, pct))) := by
  refine ⟨_, rfl, ?_⟩
  rw [XMLWriter.checkTotalFilesize, if_neg (by omega)]
  by_cases hp : ((((writtenSizes.sum : ℤ) - (orig : ℤ)).natAbs : ℚ) / (orig : ℚ)) * 100 ≤ 5
  · exact Or.inl ⟨hp, by rw [if_pos hp]⟩
  · exact Or.inr ⟨lt_of_not_le hp, by rw [if_neg hp]⟩

/-- C8 witness: a single file recorded at 100 bytes but written at 90
triggers the aggregate warning path with a 10 % difference. -/
theorem C8_total_size_check_advisory_witness :
    ∃ pct : ℚ,
      pct = (((([90].sum : ℤ) - ((100 : Nat) : ℤ)).natAbs : ℚ) / ((100 : Nat) : ℚ)) * 100
      ∧ ((pct ≤ 5 ∧ XMLWriter.checkTotalFilesize [90] 100 = .ok (true, pct))
        ∨ (5 < pct ∧ XMLWriter.checkTotalFilesize [90] 100 = .ok (false, pct))) :=
  C8_total_size_check_advisory [90] 100 (by norm_num)

/-- C10: both difference-percentage helpers
(`LocalizationParser.calculate_difference` and
`XMLParser._calculate_difference_percentage`) always return a value between
0 and 100 inclusive, and return exactly 0 when the two inputs are equal. -/
theorem C10_difference_helpers_bounded (s1 s2 : String) :
    (0 ≤ LocalizationParser.calculateDifference s1 s2
      ∧ LocalizationParser.calculateDifference s1 s2 ≤ 100)
    ∧ (0 ≤ XMLParser.calculateDifferencePercentage s1 s2
      ∧ XMLParser.calculateDifferencePercentage s1 s2 ≤ 100)
    ∧ (s1 = s2 → LocalizationParser.calculateDifference s1 s2 = 0
      ∧ XMLParser.calculateDifferencePercentage s1 s2 = 0) := by
  by_cases h : s1 = s2
  · refine ⟨?_, ?_, fun _ => ?_⟩ <;>
      simp [LocalizationParser.calculateDifference,
        XMLParser.calculateDifferencePercentage, h]
  · have hb := diffQuotient_bounds
      ((((s1.toList.zip s2.toList).filter fun p => p.1 ≠ p.2).length
        + (s1.toList.length - s2.toList.length)
        + (s2.toList.length - s1.toList.length)))
      (max s1.toList.length s2.toList.length) (diffChanges_le _ _)
    refine ⟨?_, ?_, fun hc => absurd hc h⟩ <;>
      simpa [LocalizationParser.calculateDifference,
        XMLParser.calculateDifferencePercentage, h] using hb

/-- C10 witness: the helpers evaluate to exactly 0 on a concrete equal pair. -/
theorem C10_difference_helpers_bounded_witness :
    LocalizationParser.calculateDifference "abc" "abc" = 0
    ∧ XMLParser.calculateDifferencePercentage "abc" "abc" = 0 :=
  (C10_difference_helpers_bounded "abc" "abc").2.2 rfl

end MC
